import Mathlib

/-!
Verification of the reactive store composition layer of an Angular single page
application (signal-store features: request-status tracking, reset-state,
persistent storage with cross-tab broadcast, navigation helpers).

The TypeScript sources are shallowly embedded: JavaScript runtime values are
modelled by `JsValue`, JavaScript objects by association lists with string
keys, lodash helpers (pick, omit, keys, isEmpty) and the ngrx `patchState`
merge by executable Lean functions with the same semantics, and the reactive
effect plus `setTimeout` machinery of the request-status feature by an
explicit system state carrying a map from event keys to absolute timer expiry
instants together with the current clock value.
-/

set_option autoImplicit false

namespace Spec2Proof

/-- JavaScript runtime values as far as the store layer needs them: null,
booleans, numbers (integral, the stores only hold integral numbers), strings
and arrays. Absent object fields are modelled by `Option` at use sites. -/
inductive JsValue where
  | null
  | bool (b : Bool)
  | num (n : Int)
  | str (s : String)
  | arr (elems : List JsValue)
deriving Repr

mutual

/-- Boolean structural equality on `JsValue`, used where the embedded code
needs a decidable comparison of state snapshots. -/
def JsValue.beq : JsValue → JsValue → Bool
  | .null, .null => true
  | .bool a, .bool b => a == b
  | .num a, .num b => a == b
  | .str a, .str b => a == b
  | .arr as, .arr bs => JsValue.beqList as bs
  | _, _ => false

/-- Pointwise boolean equality of two `JsValue` lists. -/
def JsValue.beqList : List JsValue → List JsValue → Bool
  | [], [] => true
  | a :: as, b :: bs => JsValue.beq a b && JsValue.beqList as bs
  | _, _ => false

end

/-- JavaScript truthiness of a value: null, false, 0 and the empty string are
falsy, every other value (including any array) is truthy. -/
def jsTruthy : JsValue → Bool
  | .null => false
  | .bool b => b
  | .num n => n != 0
  | .str s => s ≠ ""
  | .arr _ => true

/-- A JavaScript object with string keys: an association list in insertion
order, keys unique in every object the embedded code constructs. -/
abbrev JsRecord := List (String × JsValue)

/-- Property read `obj[k]`: the first entry with the given key. -/
def alGet {α : Type} (r : List (String × α)) (k : String) : Option α :=
  match r with
  | [] => none
  | (k₀, v₀) :: rest => if k₀ = k then some v₀ else alGet rest k

/-- Spread update of a single computed key: an existing key keeps its position
and receives the new value, a new key is appended at the end. -/
def alSet {α : Type} (r : List (String × α)) (k : String) (v : α) : List (String × α) :=
  match r with
  | [] => [(k, v)]
  | (k₀, v₀) :: rest => if k₀ = k then (k₀, v) :: rest else (k₀, v₀) :: alSet rest k v

/-- Removal of a key from an association list. -/
def alRemove {α : Type} (r : List (String × α)) (k : String) : List (String × α) :=
  match r with
  | [] => []
  | (k₀, v₀) :: rest => if k₀ = k then rest else (k₀, v₀) :: alRemove rest k

/-- Lodash `keys`: the key list of an object in insertion order. -/
def jsKeys {α : Type} (r : List (String × α)) : List String :=
  r.map Prod.fst

/-- Lodash `pick(r, ks)`: the sub-object of `r` at the listed keys, in the
order of the key list, silently dropping keys that are not present. -/
def jsPick {α : Type} (r : List (String × α)) (ks : List String) : List (String × α) :=
  ks.filterMap (fun k => (alGet r k).map (fun v => (k, v)))

/-- Lodash `omit(r, ks)`: the sub-object of `r` without the listed keys. -/
def jsOmit {α : Type} (r : List (String × α)) (ks : List String) : List (String × α) :=
  r.filter (fun p => !(ks.contains p.1))

/-- The ngrx `patchState` merge of a partial record into a full record, the
object spread semantics of updating each supplied key. -/
def jsMerge {α : Type} (r p : List (String × α)) : List (String × α) :=
  p.foldl (fun acc kv => alSet acc kv.1 kv.2) r

/-- Boolean equality of two flat records, keys compared positionally; used for
the signal change gate on written state slices. -/
def jsRecordBeq : JsRecord → JsRecord → Bool
  | [], [] => true
  | (k₀, v₀) :: r, (k₁, v₁) :: p => k₀ == k₁ && JsValue.beq v₀ v₁ && jsRecordBeq r p
  | _, _ => false

/-! ## RequestStatusFeature (src/src/app/store/request-status/with-request-status.ts) -/

/-- The request lifecycle status union of the source. -/
inductive TRequestStatus where
  | idle
  | pending
  | fulfilled
  | rejected
deriving Repr, DecidableEq

/-- One tracked request entity: `status`, a nullable `message` (null modelled
as `none`) and an optional `data` field (`none` when the key is absent,
`some JsValue.null` would be an explicit null). -/
structure IRequestEntity where
  status : TRequestStatus
  message : Option String
  data : Option JsValue := none
deriving Repr

/-- The settle outcome passed to `markResolved`. -/
inductive TSettleStatus where
  | fulfilled
  | rejected
deriving Repr, DecidableEq

/-- The payload of `markFulfilled` and `markRejected`: optional `message` and
`data` fields plus any additional fields (the `Partial TState` part of the
source payload type), kept as a flat record. -/
structure IRequestStatusPayload where
  message : Option String := none
  data : Option JsValue := none
  extra : JsRecord := []
deriving Repr

/-- The full state of a store composed with the request status feature: the
`requests` slice plus the remaining top level state fields. The repository
never routes the `requests` slice itself through a settle payload, so payload
extras are matched against the remaining state keys. -/
structure RequestStore where
  requests : List (String × IRequestEntity)
  extra : JsRecord := []
deriving Repr

/-- The seeded initial `requests` slice: one idle entity per declared event. -/
def initialRequests (events : List String) : List (String × IRequestEntity) :=
  events.map (fun event => (event, { status := .idle, message := none }))

/-- The `setIdle` state updater of the source: replaces the whole entity of
the event with a fresh idle entity carrying a null message and no data. -/
def setIdle (event : String) (requests : List (String × IRequestEntity)) :
    List (String × IRequestEntity) :=
  alSet requests event { status := .idle, message := none }

/-- The `setPending` state updater of the source: replaces the whole entity of
the event with a fresh pending entity carrying a null message and no data. -/
def setPending (event : String) (requests : List (String × IRequestEntity)) :
    List (String × IRequestEntity) :=
  alSet requests event { status := .pending, message := none }

/-- The message normalisation of the settle updaters: the JavaScript
expression taking the payload message when truthy and null otherwise, so an
absent and an empty message both end up stored as null. -/
def settleMessage (payload : Option IRequestStatusPayload) : Option String :=
  match payload.bind (·.message) with
  | some m => if m = "" then none else some m
  | none => none

/-- The data normalisation of the settle updaters: the spread of a data field
guarded by JavaScript truthiness of the payload data, so the entity carries a
data key exactly when the payload provides a truthy data value. -/
def settleData (payload : Option IRequestStatusPayload) : Option JsValue :=
  match payload.bind (·.data) with
  | some d => if jsTruthy d then some d else none
  | none => none

/-- The `setFulfilled` state updater of the source. -/
def setFulfilled (event : String) (payload : Option IRequestStatusPayload)
    (requests : List (String × IRequestEntity)) : List (String × IRequestEntity) :=
  alSet requests event
    { status := .fulfilled, message := settleMessage payload, data := settleData payload }

/-- The `setRejected` state updater of the source. -/
def setRejected (event : String) (payload : Option IRequestStatusPayload)
    (requests : List (String × IRequestEntity)) : List (String × IRequestEntity) :=
  alSet requests event
    { status := .rejected, message := settleMessage payload, data := settleData payload }

/-- The `markPending` method: one atomic patch applying the pending updater. -/
def markPending (event : String) (store : RequestStore) : RequestStore :=
  { store with requests := setPending event store.requests }

/-- The `markResolved` method: defaults the payload data to null and the
payload message to the empty string, picks the payload fields that match
state keys, and applies the settle updater together with the picked fields in
one atomic `patchState` call. -/
def markResolved (event : String) (status : TSettleStatus)
    (result : Option IRequestStatusPayload) (store : RequestStore) : RequestStore :=
  let data : JsValue := (result.bind (·.data)).getD JsValue.null
  let message : String := (result.bind (·.message)).getD ""
  let stateKeys : List String := jsKeys store.extra
  let normalizedState : JsRecord := jsPick ((result.map (·.extra)).getD []) stateKeys
  let settled : Option IRequestStatusPayload := some { message := some message, data := some data }
  let requests :=
    match status with
    | .fulfilled => setFulfilled event settled store.requests
    | .rejected => setRejected event settled store.requests
  { requests := requests, extra := jsMerge store.extra normalizedState }

/-- The `markFulfilled` method of the source. -/
def markFulfilled (event : String) (result : Option IRequestStatusPayload)
    (store : RequestStore) : RequestStore :=
  markResolved event .fulfilled result store

/-- The `markRejected` method of the source. -/
def markRejected (event : String) (result : Option IRequestStatusPayload)
    (store : RequestStore) : RequestStore :=
  markResolved event .rejected result store

/-- The derived request snapshot of the source. -/
structure IRequestSnapshot where
  event : String
  data : JsValue
  status : TRequestStatus
  message : Option String
  isPending : Bool
  isDisabled : Bool
  isRejected : Bool
  isFulfilled : Bool
  isIdle : Bool
deriving Repr

/-- The `_getRequestSnapshot` projection of the source: data defaults to null,
status to idle, the message is coerced through JavaScript truthiness (an empty
string becomes null), and the convenience booleans compare the entity status. -/
def _getRequestSnapshot (event : String) (entity : Option IRequestEntity) : IRequestSnapshot :=
  { event := event
    data := (entity.bind (·.data)).getD JsValue.null
    status := (entity.map (·.status)).getD .idle
    message :=
      match entity.bind (·.message) with
      | some m => if m = "" then none else some m
      | none => none
    isPending := entity.map (·.status) == some .pending
    isDisabled := entity.map (·.status) == some .pending
    isRejected := entity.map (·.status) == some .rejected
    isFulfilled := entity.map (·.status) == some .fulfilled
    isIdle := entity.isNone || entity.map (·.status) == some .idle }

/-- The `requestStatus` proxy read at one event key: the snapshot of the
entity currently stored for that key. -/
def requestStatusGet (store : RequestStore) (event : String) : IRequestSnapshot :=
  _getRequestSnapshot event (alGet store.requests event)

/-- The operational state of a store composed with the request status
feature: the store state, the pending auto-reset timers as a map from event
key to absolute expiry instant, and the current clock value in milliseconds.
A spent or cleared timer is absent from the map. -/
structure RequestSystem where
  store : RequestStore
  timers : List (String × Nat) := []
  now : Nat := 0
deriving Repr

/-- The reactive effect registered in the `onInit` hook: after every patch of
the `requests` slice (the updaters always build a fresh object, so the slice
signal always reports a change) it walks all request entries and, for every
settled entry, clears any existing timer for that event and schedules a fresh
auto-reset `resetDelay` milliseconds from now. -/
def runResetEffect (resetDelay : Nat) (sys : RequestSystem) : RequestSystem :=
  { sys with
    timers :=
      sys.store.requests.foldl
        (fun ts entry =>
          if entry.2.status = .fulfilled ∨ entry.2.status = .rejected then
            alSet ts entry.1 (sys.now + resetDelay)
          else ts)
        sys.timers }

/-- A fresh store system seeded with the declared events, all idle. -/
def initSystem (events : List String) (extra : JsRecord) : RequestSystem :=
  { store := { requests := initialRequests events, extra := extra } }

/-- Calling `markPending` at instant `t`: the patch, then the effect run. -/
def sysMarkPending (resetDelay : Nat) (event : String) (t : Nat)
    (sys : RequestSystem) : RequestSystem :=
  runResetEffect resetDelay { sys with now := t, store := markPending event sys.store }

/-- Calling `markFulfilled` at instant `t`: the patch, then the effect run. -/
def sysMarkFulfilled (resetDelay : Nat) (event : String)
    (result : Option IRequestStatusPayload) (t : Nat) (sys : RequestSystem) : RequestSystem :=
  runResetEffect resetDelay { sys with now := t, store := markFulfilled event result sys.store }

/-- Calling `markRejected` at instant `t`: the patch, then the effect run. -/
def sysMarkRejected (resetDelay : Nat) (event : String)
    (result : Option IRequestStatusPayload) (t : Nat) (sys : RequestSystem) : RequestSystem :=
  runResetEffect resetDelay { sys with now := t, store := markRejected event result sys.store }

/-- The pending timer of an event firing at its expiry instant: the clock
advances to the expiry, the timer is spent, the scheduled `setIdle` patch is
applied, and the effect runs again on the changed `requests` slice. When no
timer is pending for the event nothing happens. -/
def sysFireTimer (resetDelay : Nat) (event : String) (sys : RequestSystem) : RequestSystem :=
  match alGet sys.timers event with
  | none => sys
  | some expiry =>
    runResetEffect resetDelay
      { store := { sys.store with requests := setIdle event sys.store.requests }
        timers := alRemove sys.timers event
        now := expiry }

/-! ## ResetStateFeature (src/unnamed/part_020, src/src/app/store/accessors/store-accessors.ts) -/

/-- A store composed with the reset feature: its state and the captured
initial snapshot. The `onInit` hook runs `_setInitialState(getStateSource(store))`
and `getStateSource` returns the raw, unfiltered state record, so the
snapshot contains every top level field, underscore prefixed internal fields
included; the mapped type stripping internal keys exists only at the
TypeScript type level and has no runtime counterpart. -/
structure ResetStore where
  state : JsRecord
  capturedInitialState : JsRecord
deriving Repr

/-- Store construction: the state starts at the declared initial record and
the `onInit` hook captures the full state record as the reset target. -/
def initResetStore (declared : JsRecord) : ResetStore :=
  { state := declared, capturedInitialState := declared }

/-- An ordinary `patchState` call on the store. -/
def resetStorePatch (p : JsRecord) (store : ResetStore) : ResetStore :=
  { store with state := jsMerge store.state p }

/-- The `resetState` method of the source: one atomic patch of either the
supplied override or the captured initial snapshot. -/
def resetState (overrideState : Option JsRecord) (store : ResetStore) : ResetStore :=
  { store with state := jsMerge store.state (overrideState.getD store.capturedInitialState) }

/-! ## StorageFeature (src/unnamed/part_019) -/

/-- The normalised `withStorage` options. Serialize and deserialize are the
caller supplied (default JSON) codec; a thrown exception is modelled as
`Except.error`. The storage backend is the shared key to blob map of the
model state; `getThrows` and `setThrows` flag a throwing backend call. -/
structure StorageOptions where
  includeKeys : List String := []
  excludeKeys : List String := []
  serialize : JsRecord → Except Unit String
  deserialize : String → Except Unit JsRecord
  shouldStore : JsRecord → Bool := fun _ => true
  broadcastConfigured : Bool := false
  broadcastCreateOk : Bool := true
  getThrows : Bool := false
  setThrows : Bool := false

/-- The observable state of one store instance composed with the storage
feature: its state record, the shared storage backend contents, the messages
this instance has posted on its broadcast channel, the number of errors
routed to the exception callback, and whether a broadcast channel is open. -/
structure StorageModel where
  state : JsRecord
  stored : List (String × String) := []
  posted : List String := []
  errors : Nat := 0
  channel : Bool := false
deriving Repr

/-- The module level `resolvePersistedState` helper: reads the blob under the
store key inside a try block, treats a missing or empty blob as null, and
deserializes; any throw is routed to the exception callback and yields null.
Returns the resolved state and the number of exceptions routed. -/
def resolvePersistedState (key : String) (options : StorageOptions)
    (stored : List (String × String)) : Option JsRecord × Nat :=
  if options.getThrows then (none, 1)
  else
    match alGet stored key with
    | none => (none, 0)
    | some persistedValue =>
      if persistedValue = "" then (none, 0)
      else
        match options.deserialize persistedValue with
        | .ok state => (some state, 0)
        | .error _ => (none, 1)

/-- The `_sanitizeAndUpdateState` method: exits on a null incoming state,
picks the incoming fields down to the keys present on the current state, and
patches only when the sanitized record is non-empty. Returns the next state
and whether a patch was applied. -/
def _sanitizeAndUpdateState (incoming : Option JsRecord) (state : JsRecord) :
    JsRecord × Bool :=
  match incoming with
  | none => (state, false)
  | some st =>
    let sanitizedState := jsPick st (jsKeys state)
    if sanitizedState.isEmpty then (state, false)
    else (jsMerge state sanitizedState, true)

/-- The `_rehydratePersistedState` method: resolve the persisted blob, then
sanitize and merge it into the store state. -/
def _rehydratePersistedState (key : String) (options : StorageOptions)
    (m : StorageModel) : StorageModel :=
  let resolved := resolvePersistedState key options m.stored
  let next := _sanitizeAndUpdateState resolved.1 m.state
  { m with state := next.1, errors := m.errors + resolved.2 }

/-- The `_setupBroadcastListener` method: without a broadcast configuration no
channel is created; a throwing channel constructor is caught, routed to the
exception callback, and leaves the feature without a channel. Returns whether
a channel is open and the number of exceptions routed. -/
def _setupBroadcastListener (options : StorageOptions) : Bool × Nat :=
  if !options.broadcastConfigured then (false, 0)
  else if options.broadcastCreateOk then (true, 0)
  else (false, 1)

/-- The persist effect registered in the `onInit` hook, run on a state
change: when `shouldStore` holds, the include or exclude filtered projection
is serialized and, inside one try block, posted on the broadcast channel and
written to storage under the store key; a throw from serialize or from the
backend write is routed to the exception callback. -/
def persistEffect (key : String) (options : StorageOptions) (m : StorageModel) :
    StorageModel :=
  let currentState := m.state
  if !options.shouldStore currentState then m
  else
    let persistableState :=
      if !options.includeKeys.isEmpty then jsPick currentState options.includeKeys
      else jsOmit currentState options.excludeKeys
    match options.serialize persistableState with
    | .error _ => { m with errors := m.errors + 1 }
    | .ok serializedValue =>
      let posted := if m.channel then m.posted ++ [serializedValue] else m.posted
      if options.setThrows then { m with posted := posted, errors := m.errors + 1 }
      else { m with posted := posted, stored := alSet m.stored key serializedValue }

/-- The broadcast `onmessage` handler plus the reactive follow-up: an empty
message is ignored; otherwise the message is deserialized inside a try block,
sanitized and patched into the state, the `onChange` callback fires, and the
same blob is written to local storage. Because the patch writes fresh slice
values into the state signal, a patch that changes the state re-runs the
persist effect afterwards, which posts on the broadcast channel again. -/
def receiveMessage (key : String) (options : StorageOptions) (msg : String)
    (m : StorageModel) : StorageModel :=
  if msg = "" then m
  else
    match options.deserialize msg with
    | .error _ => { m with errors := m.errors + 1 }
    | .ok deserializedValue =>
      let next := _sanitizeAndUpdateState (some deserializedValue) m.state
      let m₁ := { m with state := next.1 }
      let m₂ :=
        if options.setThrows then { m₁ with errors := m₁.errors + 1 }
        else { m₁ with stored := alSet m₁.stored key msg }
      if next.2 && !jsRecordBeq next.1 m.state then persistEffect key options m₂ else m₂

/-! ## NavigationFeature query persistence (src/src/app/core/services/navigation.ts) -/

/-- The Angular `QueryParamsHandling` union: merge, preserve, or the empty
string meaning no persistence. -/
inductive QueryParamsHandling where
  | merge
  | preserve
  | empty
deriving Repr, DecidableEq

/-- The two path match strictness modes `resolveQueryPersistence` uses. -/
inductive TPathMatch where
  | exact
  | subset
deriving Repr, DecidableEq

/-- The host router as the navigation service consumes it: the current url
string and the `isActive` url matching predicate, both external collaborators
of the store layer. -/
structure RouterModel where
  url : String
  isActive : String → TPathMatch → Bool

/-- The `matchesActivePath` utility restricted to what the navigation service
uses: a missing path never matches, otherwise the router predicate decides. -/
def matchesActivePath (router : RouterModel) (path : Option String) (mode : TPathMatch) : Bool :=
  match path with
  | none => false
  | some p => router.isActive p mode

/-- The `Navigation.resolveQueryPersistence` method: explicit handling wins,
then non-empty query params force merge, then the active and extended match
states of the path decide between preserve and no persistence. -/
def resolveQueryPersistence (router : RouterModel) (path : Option String)
    (queryParams : Option JsRecord) (queryParamsHandling : Option QueryParamsHandling) :
    QueryParamsHandling :=
  if h : queryParamsHandling.isSome then queryParamsHandling.get h
  else if (queryParams.getD []).isEmpty = false then .merge
  else
    let isExtendedRoute := matchesActivePath router path .subset
    let isActivatedRoute := matchesActivePath router path .exact
    if !isActivatedRoute then
      if path = some "" ∨ path = some "/" then .empty
      else if isExtendedRoute then .preserve else .empty
    else if router.url.data.contains '?' then .preserve
    else .empty

/-! ## Menu expansion toggle (src/src/app/store/logger/with-logger.ts, withNavigation section) -/

mutual

/-- A menu item node as `updateMenuExpansion` sees it: the numeric id, the
expansion flag, the child list (`hasItems` false models an undefined `items`
field), one representative preserved attribute, and the object identity of
the node modelled as an allocation number `oid`. -/
inductive MenuTree where
  | node (oid : Nat) (id : Int) (label : String) (expanded : Bool)
      (hasItems : Bool) (items : MenuForest)

/-- A list of menu item nodes. -/
inductive MenuForest where
  | nil
  | cons (head : MenuTree) (tail : MenuForest)

end

mutual

/-- The body of the `updateMenuExpansion` map callback for one node: child
items are recursed into when present, the expansion flag flips exactly on the
matching id, and the returned object literal is a fresh allocation, so the
result node always carries a new `oid` drawn from the counter. -/
def updateTree (menuId : Int) (t : MenuTree) (fresh : Nat) : MenuTree × Nat :=
  match t with
  | .node _ id label expanded hasItems items =>
    let recursed := if hasItems then updateForest menuId items fresh else (items, fresh)
    let requiresExpansion := if id == menuId then !expanded else expanded
    (.node recursed.2 id label requiresExpansion hasItems recursed.1, recursed.2 + 1)

/-- The `updateMenuExpansion` function of the source over a list of items,
threading the allocation counter through the map. -/
def updateForest (menuId : Int) (ts : MenuForest) (fresh : Nat) : MenuForest × Nat :=
  match ts with
  | .nil => (.nil, fresh)
  | .cons t rest =>
    let ut := updateTree menuId t fresh
    let urest := updateForest menuId rest ut.2
    (.cons ut.1 urest.1, urest.2)

end

mutual

/-- The value view of a node: the same tree with every allocation number
erased, for comparing trees up to object identity. -/
def eraseTree : MenuTree → MenuTree
  | .node _ id label expanded hasItems items => .node 0 id label expanded hasItems (eraseForest items)

/-- The value view of a forest. -/
def eraseForest : MenuForest → MenuForest
  | .nil => .nil
  | .cons t rest => .cons (eraseTree t) (eraseForest rest)

end

mutual

/-- The intended value level behaviour of the toggle on one node: flip the
expansion flag exactly on the matching id, recurse into present children,
change nothing else. -/
def flipTree (menuId : Int) : MenuTree → MenuTree
  | .node oid id label expanded hasItems items =>
    .node oid id label (if id == menuId then !expanded else expanded) hasItems
      (if hasItems then flipForest menuId items else items)

/-- The intended value level behaviour of the toggle on a forest. -/
def flipForest (menuId : Int) : MenuForest → MenuForest
  | .nil => .nil
  | .cons t rest => .cons (flipTree menuId t) (flipForest menuId rest)

end

mutual

/-- All allocation numbers appearing in a tree. -/
def treeOids : MenuTree → List Nat
  | .node oid _ _ _ _ items => oid :: forestOids items

/-- All allocation numbers appearing in a forest. -/
def forestOids : MenuForest → List Nat
  | .nil => []
  | .cons t rest => treeOids t ++ forestOids rest

end

mutual

/-- The first node carrying the given id, depth first. -/
def findTreeById (menuId : Int) (t : MenuTree) : Option MenuTree :=
  match t with
  | .node oid id label expanded hasItems items =>
    if id == menuId then some (.node oid id label expanded hasItems items)
    else findForestById menuId items

/-- The first node carrying the given id in a forest, depth first. -/
def findForestById (menuId : Int) : MenuForest → Option MenuTree
  | .nil => none
  | .cons t rest =>
    match findTreeById menuId t with
    | some found => some found
    | none => findForestById menuId rest

end

/-! ## Concrete instantiations used by closed evaluations and witnesses -/

/-- A concrete serializer for flat records over the key a, standing in for
the default JSON stringify on the small states of the evaluations. -/
def demoSerialize : JsRecord → Except Unit String := fun r =>
  if jsRecordBeq r [("a", .num 1)] then .ok "A1"
  else if jsRecordBeq r [("a", .num 2)] then .ok "A2"
  else if jsRecordBeq r [("a", .num 99)] then .ok "A99"
  else .error ()

/-- The matching concrete deserializer, inverse to `demoSerialize` on the
blobs the evaluations use. -/
def demoDeserialize : String → Except Unit JsRecord := fun s =>
  if s = "A1" then .ok [("a", .num 1)]
  else if s = "A2" then .ok [("a", .num 2)]
  else if s = "A99" then .ok [("a", .num 99)]
  else .error ()

/-- Storage options of the layout style store of the repository: an include
list with one key and a configured broadcast channel. -/
def demoStorageOptions : StorageOptions :=
  { includeKeys := ["a"]
    serialize := demoSerialize
    deserialize := demoDeserialize
    broadcastConfigured := true }

/-- Storage options whose codec always throws, for the error containment
evaluations. -/
def demoBrokenOptions : StorageOptions :=
  { serialize := fun _ => .error ()
    deserialize := fun _ => .error () }

/-- A concrete router whose active url is a users list page carrying a query
string, matching the users path exactly and the root path as a subset. -/
def demoRouter : RouterModel :=
  { url := "/users?tab=2"
    isActive := fun p mode =>
      match mode with
      | .exact => p == "/users"
      | .subset => p == "/users" || p == "/" }

/-- The two level menu of scenario C extended with an untouched sibling: a
root item with two children, ids 2 and 3, everything collapsed. -/
def demoMenuForest : MenuForest :=
  .cons (.node 0 1 "root" false true
    (.cons (.node 1 2 "child" false false .nil)
      (.cons (.node 2 3 "sibling" false false .nil) .nil))) .nil

/-- The isNil check on a forest. -/
def MenuForest.isNil : MenuForest → Bool
  | .nil => true
  | .cons _ _ => false

mutual

/-- Well-formedness of a node as the JavaScript data allows it: a node
without an items field has no children. -/
def wfTree : MenuTree → Bool
  | .node _ _ _ _ hasItems items => (hasItems || items.isNil) && wfForest items

/-- Well-formedness of every node of a forest. -/
def wfForest : MenuForest → Bool
  | .nil => true
  | .cons t rest => wfTree t && wfForest rest

end

/-! ## Association list lemmas -/

theorem alGet_alSet {α : Type} (r : List (String × α)) (k k' : String) (v : α) :
    alGet (alSet r k v) k' = if k = k' then some v else alGet r k' := by
  induction r with
  | nil =>
    by_cases h : k = k' <;> simp [alSet, alGet, h]
  | cons hd tl ih =>
    obtain ⟨k₀, v₀⟩ := hd
    by_cases h₀ : k₀ = k
    · subst h₀
      by_cases h : k₀ = k' <;> simp [alSet, alGet, h]
    · by_cases h : k₀ = k'
      · subst h
        have : ¬k = k₀ := fun hc => h₀ hc.symm
        simp [alSet, alGet, h₀, this]
      · simp [alSet, alGet, h₀, h, ih]

theorem mem_jsKeys {α : Type} (r : List (String × α)) (k : String) :
    k ∈ jsKeys r ↔ (alGet r k).isSome := by
  induction r with
  | nil => simp [jsKeys, alGet]
  | cons hd tl ih =>
    obtain ⟨k₀, v₀⟩ := hd
    rw [show jsKeys ((k₀, v₀) :: tl) = k₀ :: jsKeys tl from rfl, List.mem_cons]
    by_cases h : k₀ = k
    · subst h
      simp [alGet]
    · have hne : ¬k = k₀ := fun hc => h hc.symm
      simp [alGet, h, hne, ih]

theorem jsPick_nil {α : Type} (ks : List String) :
    jsPick ([] : List (String × α)) ks = [] := by
  induction ks with
  | nil => rfl
  | cons k ks _ => simp [jsPick, alGet, List.filterMap_cons]

theorem alGet_jsPick {α : Type} (r : List (String × α)) (ks : List String) (k : String) :
    alGet (jsPick r ks) k = if k ∈ ks then alGet r k else none := by
  induction ks with
  | nil => simp [jsPick, alGet]
  | cons k₀ ks ih =>
    have hstep : jsPick r (k₀ :: ks) =
        match alGet r k₀ with
        | some v => (k₀, v) :: jsPick r ks
        | none => jsPick r ks := by
      cases h₀ : alGet r k₀ <;> simp [jsPick, List.filterMap_cons, h₀]
    rw [hstep]
    by_cases hk : k₀ = k
    · subst hk
      cases h₀ : alGet r k₀ with
      | none =>
        rw [ih]
        by_cases hks : k₀ ∈ ks <;> simp [hks, h₀]
      | some v => simp [alGet]
    · have hne : ¬k = k₀ := fun hc => hk hc.symm
      cases h₀ : alGet r k₀ with
      | none => rw [ih]; simp [hne]
      | some v => simp [alGet, hk, hne, ih]

theorem jsKeys_jsPick {α : Type} (r : List (String × α)) (ks : List String) :
    jsKeys (jsPick r ks) = ks.filter (fun k => (alGet r k).isSome) := by
  induction ks with
  | nil => rfl
  | cons k₀ ks ih =>
    cases h₀ : alGet r k₀ with
    | none =>
      have hstep : jsPick r (k₀ :: ks) = jsPick r ks := by
        simp [jsPick, List.filterMap_cons, h₀]
      rw [hstep, ih, List.filter_cons]
      simp [h₀]
    | some v =>
      have hstep : jsPick r (k₀ :: ks) = (k₀, v) :: jsPick r ks := by
        simp [jsPick, List.filterMap_cons, h₀]
      rw [hstep, show jsKeys ((k₀, v) :: jsPick r ks) = k₀ :: jsKeys (jsPick r ks) from rfl,
        ih, List.filter_cons]
      simp [h₀]

theorem alGet_jsMerge {α : Type} (p : List (String × α)) (r : List (String × α)) (k : String)
    (h : (jsKeys p).Nodup) :
    alGet (jsMerge r p) k =
      match alGet p k with
      | some v => some v
      | none => alGet r k := by
  induction p generalizing r with
  | nil => simp [jsMerge, alGet]
  | cons hd tl ih =>
    obtain ⟨k₀, v₀⟩ := hd
    rw [show jsKeys ((k₀, v₀) :: tl) = k₀ :: jsKeys tl from rfl] at h
    have hnotin : k₀ ∉ jsKeys tl := (List.nodup_cons.mp h).1
    have htl : (jsKeys tl).Nodup := (List.nodup_cons.mp h).2
    have hmerge : jsMerge r ((k₀, v₀) :: tl) = jsMerge (alSet r k₀ v₀) tl := rfl
    rw [hmerge, ih _ htl]
    by_cases hk : k₀ = k
    · subst hk
      have : alGet tl k₀ = none := by
        cases hg : alGet tl k₀ with
        | none => rfl
        | some v =>
          exact absurd ((mem_jsKeys tl k₀).mpr (by simp [hg])) hnotin
      simp [this, alGet, alGet_alSet]
    · have : ¬k₀ = k := hk
      cases hg : alGet tl k with
      | none => simp [hg, alGet, this, alGet_alSet]
      | some v => simp [hg, alGet, this]

theorem alGet_isSome_of_mem_keys {α : Type} (r : List (String × α)) (k : String)
    (h : k ∈ jsKeys r) : (alGet r k).isSome :=
  (mem_jsKeys r k).mp h

/-! ## Claim theorems: RequestStatusFeature -/

/-- C3 counterexample: the claim says `markPending` leaves the data field of
the event entity unchanged, but `setPending` replaces the whole entity with a
fresh pending entity, so a previously stored data value is dropped: before
the call the LOAD entity holds data 7, after the call it holds no data. -/
theorem markPending_clears_data_counterexample :
    (alGet (markPending "LOAD"
        { requests := [("LOAD", { status := .fulfilled, message := none, data := some (.num 7) })] }).requests
        "LOAD").bind (·.data) = none ∧
    (alGet ({ requests := [("LOAD", { status := .fulfilled, message := none, data := some (.num 7) })] }
        : RequestStore).requests "LOAD").bind (·.data) = some (.num 7) :=
  ⟨rfl, rfl⟩

/-- C3 amended: `markPending` replaces the entity of the event with a fresh
pending entity, so the status becomes pending, the message null, and the
data field is dropped rather than preserved. -/
theorem markPending_sets_pending_clears_message_and_data (event : String) (store : RequestStore) :
    alGet (markPending event store).requests event =
      some { status := .pending, message := none, data := none } := by
  simp [markPending, setPending, alGet_alSet]

/-- C4 counterexample: the claim says the stored message defaults to the
empty string when the settle payload omits it, but the settle updaters pass
the defaulted empty string through JavaScript truthiness, so the entity of a
payload-free `markFulfilled` stores a null message, not the empty string. -/
theorem settle_message_empty_becomes_null_counterexample :
    (alGet (markFulfilled "LOAD" none
        { requests := [("LOAD", { status := .pending, message := none })] }).requests
        "LOAD").map (·.message) = some none ∧
    (some (none : Option String)) ≠ some (some "") :=
  ⟨rfl, by simp⟩

/-- C4 amended: `markResolved` sets the status of the event entity to the
settle outcome; the stored message is the payload message when that is a
non-empty string and null otherwise (an omitted message defaults to the empty
string and is then coerced to null); the data field is present exactly when
the payload provides a truthy data value, so it is in particular never an
explicit null; and the payload fields whose names match store state keys are
merged into the store state by the same single `markResolved` transition that
writes the status. -/
theorem markResolved_settles_entity_and_merges_extras (event : String) (status : TSettleStatus)
    (result : Option IRequestStatusPayload) (store : RequestStore)
    (hnodup : (jsKeys store.extra).Nodup) :
    (alGet (markResolved event status result store).requests event =
      some { status := match status with | .fulfilled => .fulfilled | .rejected => .rejected
             message := match result.bind (·.message) with
                        | some m => if m = "" then none else some m
                        | none => none
             data := match result.bind (·.data) with
                     | some d => if jsTruthy d then some d else none
                     | none => none }) ∧
    ((alGet (markResolved event status result store).requests event).bind (·.data) ≠
      some JsValue.null) ∧
    (∀ k : String,
      alGet (markResolved event status result store).extra k =
        if k ∈ jsKeys store.extra then
          (alGet ((result.map (·.extra)).getD []) k).or (alGet store.extra k)
        else alGet store.extra k) := by
  have hreq : alGet (markResolved event status result store).requests event =
      some { status := match status with | .fulfilled => .fulfilled | .rejected => .rejected
             message := match result.bind (·.message) with
                        | some m => if m = "" then none else some m
                        | none => none
             data := match result.bind (·.data) with
                     | some d => if jsTruthy d then some d else none
                     | none => none } := by
    cases status <;>
      cases hm : result.bind (·.message) <;> cases hd : result.bind (·.data) <;>
        simp [markResolved, setFulfilled, setRejected, settleMessage, settleData,
          alGet_alSet, hm, hd, jsTruthy]
  refine ⟨hreq, ?_, ?_⟩
  · rw [hreq]
    cases hd : result.bind (·.data) with
    | none => simp
    | some d =>
      by_cases ht : jsTruthy d = true
      · simp [ht]
        intro hdn
        subst hdn
        simp [jsTruthy] at ht
      · simp [Bool.not_eq_true] at ht
        simp [ht]
  · intro k
    have hkeys : (jsKeys (jsPick ((result.map (·.extra)).getD []) (jsKeys store.extra))).Nodup := by
      rw [jsKeys_jsPick]
      exact hnodup.filter _
    have hextra : (markResolved event status result store).extra =
        jsMerge store.extra (jsPick ((result.map (·.extra)).getD []) (jsKeys store.extra)) := by
      cases status <;> rfl
    rw [hextra, alGet_jsMerge _ _ _ hkeys, alGet_jsPick]
    by_cases hk : k ∈ jsKeys store.extra
    · simp [hk]
      cases hg : alGet ((result.map (·.extra)).getD []) k <;> simp [hg, Option.or]
    · simp [hk]

/-- C4 amended witness: a fulfilled settle with message ok, truthy data 5
and an extra payload field count that matches a store state key patches the
entity and the state field in the same transition. -/
theorem markResolved_settles_entity_and_merges_extras_witness :
    alGet (markResolved "LOAD" .fulfilled
        (some { message := some "ok", data := some (.num 5), extra := [("count", .num 9)] })
        { requests := [("LOAD", { status := .pending, message := none })]
          extra := [("count", .num 0)] }).requests "LOAD" =
      some { status := .fulfilled, message := some "ok", data := some (.num 5) } ∧
    alGet (markResolved "LOAD" .fulfilled
        (some { message := some "ok", data := some (.num 5), extra := [("count", .num 9)] })
        { requests := [("LOAD", { status := .pending, message := none })]
          extra := [("count", .num 0)] }).extra "count" = some (.num 9) := by
  have h := markResolved_settles_entity_and_merges_extras "LOAD" .fulfilled
    (some { message := some "ok", data := some (.num 5), extra := [("count", .num 9)] })
    { requests := [("LOAD", { status := .pending, message := none })]
      extra := [("count", .num 0)] } (by decide)
  refine ⟨?_, ?_⟩
  · rw [h.1]
    rfl
  · rw [h.2.2 "count"]
    simp [jsKeys, alGet, Option.or]

/-- C2 counterexample: the claim says the snapshot after `markPending` then
`markFulfilled` with a data payload and a message carries exactly the
supplied data and message, but the settle updater gates the stored data on
JavaScript truthiness and coerces an empty message through truthiness too:
supplying data 0 and the empty message yields a fulfilled snapshot whose
data is null, not 0, and whose message is null, not the empty string. -/
theorem request_lifecycle_falsy_payload_counterexample :
    let sys := sysMarkFulfilled 1500 "LOAD"
      (some { message := some "", data := some (.num 0) }) 10
      (sysMarkPending 1500 "LOAD" 0 (initSystem ["LOAD"] []))
    (requestStatusGet sys.store "LOAD").isFulfilled = true ∧
      (requestStatusGet sys.store "LOAD").data = .null ∧
      JsValue.null ≠ JsValue.num 0 ∧
      (requestStatusGet sys.store "LOAD").message = none ∧
      (none : Option String) ≠ some "" :=
  ⟨rfl, rfl, nofun, rfl, nofun⟩

/-- C2 amended: from a fresh store declaring the event, `markPending` then
`markFulfilled` with any supplied data value and message yields a snapshot
that is fulfilled and not pending, whose data is the supplied value when
that value is truthy and null otherwise, and whose message is the supplied
message when it is a non-empty string and null otherwise; one auto-reset
timer is then pending for the settle instant plus `resetDelay`, and when it
fires with no further mark call the snapshot reverts to idle with a null
message and the data cleared to null. -/
theorem request_lifecycle_fulfilled_then_reset (resetDelay : Nat) (event : String)
    (d : JsValue) (msg : String) (extra : JsRecord) (t₁ t₂ : Nat) :
    let sys₁ := sysMarkFulfilled resetDelay event (some { message := some msg, data := some d }) t₂
      (sysMarkPending resetDelay event t₁ (initSystem [event] extra))
    let snap := requestStatusGet sys₁.store event
    let sys₂ := sysFireTimer resetDelay event sys₁
    let snap₂ := requestStatusGet sys₂.store event
    snap.isFulfilled = true ∧ snap.isPending = false ∧
      snap.data = (if jsTruthy d = true then d else .null) ∧
      snap.message = (if msg = "" then none else some msg) ∧
      alGet sys₁.timers event = some (t₂ + resetDelay) ∧
      sys₂.now = t₂ + resetDelay ∧
      snap₂.isIdle = true ∧ snap₂.status = .idle ∧ snap₂.message = none ∧ snap₂.data = .null := by
  by_cases hd : jsTruthy d = true <;> by_cases hm : msg = "" <;>
    simp [sysMarkFulfilled, sysMarkPending, sysFireTimer, initSystem, runResetEffect,
      markFulfilled, markResolved, markPending, setPending, setFulfilled, setIdle,
      settleMessage, settleData, initialRequests, requestStatusGet, _getRequestSnapshot,
      alSet, alGet, alRemove, jsPick_nil, jsMerge, hd, hm]

/-- C2 witness: the LOAD scenario with the default 1500 millisecond delay,
data the array 1, 2, 3 and message ok. -/
theorem request_lifecycle_fulfilled_then_reset_witness :
    let sys₁ := sysMarkFulfilled 1500 "LOAD"
      (some { message := some "ok", data := some (.arr [.num 1, .num 2, .num 3]) }) 10
      (sysMarkPending 1500 "LOAD" 0 (initSystem ["LOAD"] []))
    (requestStatusGet sys₁.store "LOAD").isFulfilled = true ∧
      (requestStatusGet sys₁.store "LOAD").data = .arr [.num 1, .num 2, .num 3] ∧
      (requestStatusGet (sysFireTimer 1500 "LOAD" sys₁).store "LOAD").isIdle = true := by
  have h := request_lifecycle_fulfilled_then_reset 1500 "LOAD"
    (.arr [.num 1, .num 2, .num 3]) "ok" [] 0 10
  refine ⟨h.1, ?_, h.2.2.2.2.2.2.1⟩
  have h₂ := h.2.2.1
  simpa [jsTruthy] using h₂

/-- C5: settling the same event twice replaces the pending auto-reset timer
instead of stacking a second one: after the two calls exactly one timer is
pending, set to fire `resetDelay` after the second call, and firing it resets
the snapshot to idle at that instant. -/
theorem settle_timer_replaced_not_stacked (resetDelay : Nat) (event : String)
    (extra : JsRecord) (p₁ p₂ : Option IRequestStatusPayload) (t₁ t₂ : Nat)
    (h₁ : t₁ ≤ t₂) (h₂ : t₂ < t₁ + resetDelay) :
    let sys := sysMarkFulfilled resetDelay event p₂ t₂
      (sysMarkFulfilled resetDelay event p₁ t₁ (initSystem [event] extra))
    sys.timers = [(event, t₂ + resetDelay)] ∧
      (sysFireTimer resetDelay event sys).now = t₂ + resetDelay ∧
      (requestStatusGet (sysFireTimer resetDelay event sys).store event).isIdle = true := by
  simp [sysMarkFulfilled, sysFireTimer, initSystem, runResetEffect, markFulfilled,
    markResolved, setFulfilled, setIdle, settleMessage, settleData, initialRequests,
    requestStatusGet, _getRequestSnapshot, alSet, alGet, alRemove, jsPick_nil, jsMerge]

/-- C5 witness: two payload-free settle calls 1000 milliseconds apart with
the default 1500 millisecond delay. -/
theorem settle_timer_replaced_not_stacked_witness :
    (sysMarkFulfilled 1500 "SAVE" none 1000
        (sysMarkFulfilled 1500 "SAVE" none 0 (initSystem ["SAVE"] []))).timers =
      [("SAVE", 2500)] ∧
    (sysFireTimer 1500 "SAVE"
        (sysMarkFulfilled 1500 "SAVE" none 1000
          (sysMarkFulfilled 1500 "SAVE" none 0 (initSystem ["SAVE"] [])))).now = 2500 := by
  have h := settle_timer_replaced_not_stacked 1500 "SAVE" [] none none 0 1000
    (by omega) (by omega)
  exact ⟨h.1, h.2.1⟩

/-! ## Claim theorems: ResetStateFeature -/

/-- C6 evaluation at the failing input: the captured reset snapshot is the
raw runtime state record, underscore prefixed fields included, because the
mapped type stripping internal keys exists only at the TypeScript type
level. A store starting at transition mode none is patched to slide and then
reset with no argument: the public field is restored, but the internal
underscore prefixed field is also patched back to none instead of staying at
slide as the claim requires. -/
theorem resetState_restores_internal_prefixed_fields :
    let s₀ : JsRecord := [("_transitionMode", .str "none"), ("pageTitle", .str "home")]
    let patched := resetStorePatch
      [("_transitionMode", .str "slide"), ("pageTitle", .str "about")] (initResetStore s₀)
    let reset := resetState none patched
    alGet patched.state "_transitionMode" = some (.str "slide") ∧
      alGet reset.state "_transitionMode" = some (.str "none") ∧
      alGet reset.state "pageTitle" = some (.str "home") :=
  ⟨rfl, rfl, rfl⟩

/-! ## Claim theorems: StorageFeature -/

/-- C1 evaluation at the failing input: a store with state a = 1, b = 2,
include list a and an open broadcast channel receives the broadcast blob for
a = 99 style update a = 2. The receive handler merges the value and rewrites
local storage, but the merge patch changes the state slice, so the persist
effect re-runs and posts the serialized projection on the broadcast channel:
the posted list is non-empty, contradicting the claim that handling an
incoming message never causes a post. -/
theorem receiveMessage_triggers_rebroadcast :
    let m₀ : StorageModel := { state := [("a", .num 1), ("b", .num 2)], channel := true }
    let m₁ := receiveMessage "layout" demoStorageOptions "A2" m₀
    m₁.state = [("a", .num 2), ("b", .num 2)] ∧
      alGet m₁.stored "layout" = some "A2" ∧
      m₁.posted = ["A2"] :=
  ⟨rfl, rfl, rfl⟩

theorem persistEffect_setThrows_keeps_stored (key : String) (options : StorageOptions)
    (m : StorageModel) (hset : options.setThrows = true) :
    (persistEffect key options m).stored = m.stored ∧
      m.errors ≤ (persistEffect key options m).errors := by
  by_cases hs : options.shouldStore m.state
  · by_cases hinc : options.includeKeys = []
    · cases hser : options.serialize (jsOmit m.state options.excludeKeys) with
      | error e => simp [persistEffect, hs, hinc, hser]
      | ok blob => simp [persistEffect, hs, hinc, hser, hset]
    · cases hser : options.serialize (jsPick m.state options.includeKeys) with
      | error e => simp [persistEffect, hs, hinc, hser]
      | ok blob => simp [persistEffect, hs, hinc, hser, hset]
  · simp [persistEffect, hs]

theorem receiveMessage_setThrows_keeps_stored (key : String) (options : StorageOptions)
    (msg : String) (D : JsRecord) (m : StorageModel) (hmsg : msg ≠ "")
    (hdes : options.deserialize msg = .ok D) (hset : options.setThrows = true) :
    (receiveMessage key options msg m).stored = m.stored ∧
      m.errors + 1 ≤ (receiveMessage key options msg m).errors := by
  have hgen : ∀ (c : Bool) (mm : StorageModel),
      (if c = true then persistEffect key options mm else mm).stored = mm.stored ∧
        mm.errors ≤ (if c = true then persistEffect key options mm else mm).errors := by
    intro c mm
    cases c with
    | false => exact ⟨rfl, Nat.le_refl _⟩
    | true =>
      have hp := persistEffect_setThrows_keeps_stored key options mm hset
      simpa using hp
  unfold receiveMessage
  rw [if_neg hmsg, hdes, hset]
  have hg := hgen
    ((_sanitizeAndUpdateState (some D) m.state).2 &&
      !jsRecordBeq (_sanitizeAndUpdateState (some D) m.state).1 m.state)
    { state := (_sanitizeAndUpdateState (some D) m.state).1, stored := m.stored,
      posted := m.posted, errors := m.errors + 1, channel := m.channel }
  exact ⟨hg.1, hg.2⟩

/-- C8: every throwing collaborator of the storage feature is caught and
routed to the exception callback (counted by the errors field), the
operations stay total so no exception reaches the store's public API, and a
failed rehydrate leaves the store state unchanged: a throwing backend read
or a failing deserialize during rehydrate only counts an error; a failing
serialize during the persist effect leaves the model untouched apart from
the error count; a failing deserialize of a broadcast message does the same;
a throwing broadcast channel constructor is caught, leaving the feature
without a channel; a throwing backend write during the persist effect (the
storage quota case) is caught, leaving storage, state and the error count
plus one as the only change beside the already posted message; and a
throwing backend write while handling a received broadcast message is
caught, leaving storage untouched and routing at least the one error. -/
theorem storage_errors_contained (key : String) (options : StorageOptions)
    (m : StorageModel) (msg blob : String) (D : JsRecord) :
    ((options.getThrows = true →
      (_rehydratePersistedState key options m).state = m.state ∧
        (_rehydratePersistedState key options m).errors = m.errors + 1 ∧
        (_rehydratePersistedState key options m).stored = m.stored) ∧
    (options.getThrows = false → alGet m.stored key = some blob → blob ≠ "" →
      options.deserialize blob = .error () →
      (_rehydratePersistedState key options m).state = m.state ∧
        (_rehydratePersistedState key options m).errors = m.errors + 1 ∧
        (_rehydratePersistedState key options m).stored = m.stored) ∧
    (options.shouldStore m.state = true →
      options.serialize
          (if !options.includeKeys.isEmpty then jsPick m.state options.includeKeys
           else jsOmit m.state options.excludeKeys) = .error () →
      persistEffect key options m = { m with errors := m.errors + 1 }) ∧
    (msg ≠ "" → options.deserialize msg = .error () →
      receiveMessage key options msg m = { m with errors := m.errors + 1 }) ∧
    (options.broadcastConfigured = true → options.broadcastCreateOk = false →
      _setupBroadcastListener options = (false, 1)) ∧
    (options.setThrows = true → options.shouldStore m.state = true →
      options.serialize
          (if !options.includeKeys.isEmpty then jsPick m.state options.includeKeys
           else jsOmit m.state options.excludeKeys) = .ok blob →
      persistEffect key options m =
        { m with posted := if m.channel then m.posted ++ [blob] else m.posted
                 errors := m.errors + 1 }) ∧
    (msg ≠ "" → options.deserialize msg = .ok D → options.setThrows = true →
      (receiveMessage key options msg m).stored = m.stored ∧
        m.errors + 1 ≤ (receiveMessage key options msg m).errors)) := by
  refine ⟨?_, ?_, ?_, ?_, ?_, ?_, ?_⟩
  · intro hget
    simp [_rehydratePersistedState, resolvePersistedState, hget, _sanitizeAndUpdateState]
  · intro hget hblob hne hdes
    simp [_rehydratePersistedState, resolvePersistedState, hget, hblob, hne, hdes,
      _sanitizeAndUpdateState]
  · intro hstore hser
    by_cases hinc : options.includeKeys = []
    · simp [hinc] at hser
      simp [persistEffect, hstore, hinc, hser]
    · simp [hinc] at hser
      simp [persistEffect, hstore, hinc, hser]
  · intro hmsg hdes
    simp [receiveMessage, hmsg, hdes]
  · intro hconf hok
    simp [_setupBroadcastListener, hconf, hok]
  · intro hset hstore hser
    by_cases hinc : options.includeKeys = []
    · simp [hinc] at hser
      simp [persistEffect, hstore, hinc, hser, hset]
    · simp [hinc] at hser
      simp [persistEffect, hstore, hinc, hser, hset]
  · intro hmsg hdes hset
    exact receiveMessage_setThrows_keeps_stored key options msg D m hmsg hdes hset

/-- C8 witness: a rehydrate over a throwing deserializer keeps the state and
counts one routed exception, and a persist over a throwing backend write
keeps storage empty while routing one exception. -/
theorem storage_errors_contained_witness :
    ((_rehydratePersistedState "k" demoBrokenOptions
        { state := [("a", .num 1)], stored := [("k", "BAD")] }).state = [("a", .num 1)] ∧
      (_rehydratePersistedState "k" demoBrokenOptions
        { state := [("a", .num 1)], stored := [("k", "BAD")] }).errors = 1) ∧
    (persistEffect "k" { demoStorageOptions with setThrows := true }
        { state := [("a", .num 1)] }).errors = 1 ∧
      (persistEffect "k" { demoStorageOptions with setThrows := true }
        { state := [("a", .num 1)] }).stored = [] := by
  have h := storage_errors_contained "k" demoBrokenOptions
    { state := [("a", .num 1)], stored := [("k", "BAD")] } "" "BAD" []
  have h₂ := h.2.1 rfl rfl (by decide) rfl
  have h' := storage_errors_contained "k" { demoStorageOptions with setThrows := true }
    { state := [("a", .num 1)] } "" "A1" []
  have h₆ := h'.2.2.2.2.2.1 rfl rfl rfl
  refine ⟨⟨h₂.1, h₂.2.1⟩, ?_, ?_⟩
  · rw [h₆]
  · rw [h₆]

/-- C7: persisting a state under an include list and rehydrating a fresh
store instance with the same key, schema and a codec that round-trips the
filtered projection reproduces exactly the included fields while every other
field keeps the initial value of the fresh store. -/
theorem storage_roundtrip_rehydrates_included_fields (key : String)
    (options : StorageOptions) (S S₀ : JsRecord) (blob : String)
    (st₀ : List (String × String)) (ch ch₂ : Bool) (pv pv₂ : List String)
    (err err₂ : Nat) (k : String)
    (hnodup : (jsKeys S₀).Nodup)
    (hschema : jsKeys S = jsKeys S₀)
    (hI : ¬options.includeKeys.isEmpty)
    (hstore : options.shouldStore S = true)
    (hget : options.getThrows = false)
    (hset : options.setThrows = false)
    (hser : options.serialize (jsPick S options.includeKeys) = .ok blob)
    (hblob : blob ≠ "")
    (hdes : options.deserialize blob = .ok (jsPick S options.includeKeys)) :
    alGet (_rehydratePersistedState key options
        { state := S₀
          stored := (persistEffect key options
            { state := S, stored := st₀, posted := pv, errors := err, channel := ch }).stored
          posted := pv₂, errors := err₂, channel := ch₂ }).state k =
      if k ∈ options.includeKeys ∧ k ∈ jsKeys S₀ then alGet S k else alGet S₀ k := by
  have hm₁ : (persistEffect key options
      { state := S, stored := st₀, posted := pv, errors := err, channel := ch }).stored =
      alSet st₀ key blob := by
    simp [persistEffect, hstore, hI, hser, hset]
  have hres : resolvePersistedState key options (alSet st₀ key blob) =
      (some (jsPick S options.includeKeys), 0) := by
    simp [resolvePersistedState, hget, alGet_alSet, hblob, hdes]
  have hsanget : ∀ k' : String,
      alGet (jsPick (jsPick S options.includeKeys) (jsKeys S₀)) k' =
        if k' ∈ options.includeKeys ∧ k' ∈ jsKeys S₀ then alGet S k' else none := by
    intro k'
    rw [alGet_jsPick]
    by_cases h₁ : k' ∈ jsKeys S₀
    · rw [if_pos h₁, alGet_jsPick]
      by_cases h₂ : k' ∈ options.includeKeys <;> simp [h₁, h₂]
    · simp [h₁]
  have hsome : ∀ k' : String, k' ∈ jsKeys S₀ → (alGet S k').isSome := by
    intro k' hk'
    exact alGet_isSome_of_mem_keys S k' (hschema ▸ hk')
  rw [hm₁]
  simp only [_rehydratePersistedState, hres, _sanitizeAndUpdateState]
  by_cases hempty : (jsPick (jsPick S options.includeKeys) (jsKeys S₀)).isEmpty
  · simp only [hempty, if_true]
    by_cases hcond : k ∈ options.includeKeys ∧ k ∈ jsKeys S₀
    · exfalso
      have h₁ := hsanget k
      rw [if_pos hcond] at h₁
      have h₂ : (alGet S k).isSome := hsome k hcond.2
      have h₃ : jsPick (jsPick S options.includeKeys) (jsKeys S₀) = [] :=
        List.isEmpty_iff.mp hempty
      rw [h₃] at h₁
      simp [alGet] at h₁
      rw [← h₁] at h₂
      simp at h₂
    · simp [hcond]
  · rw [Bool.not_eq_true] at hempty
    simp only [hempty, Bool.false_eq_true, if_false]
    have hkeysnodup : (jsKeys (jsPick (jsPick S options.includeKeys) (jsKeys S₀))).Nodup := by
      rw [jsKeys_jsPick]
      exact hnodup.filter _
    show alGet (jsMerge S₀ (jsPick (jsPick S options.includeKeys) (jsKeys S₀))) k = _
    rw [alGet_jsMerge _ _ _ hkeysnodup, hsanget k]
    by_cases hcond : k ∈ options.includeKeys ∧ k ∈ jsKeys S₀
    · rw [if_pos hcond, if_pos hcond]
      have h₂ : (alGet S k).isSome := hsome k hcond.2
      cases hg : alGet S k with
      | none => rw [hg] at h₂; simp at h₂
      | some v => simp
    · rw [if_neg hcond, if_neg hcond]

/-- C7 witness: scenario B, a store with state a = 99, b = 2 persisted under
include a; a fresh instance declaring a = 1, b = 2 rehydrates to a = 99 with
b untouched. -/
theorem storage_roundtrip_rehydrates_included_fields_witness :
    alGet (_rehydratePersistedState "layout" demoStorageOptions
        { state := [("a", .num 1), ("b", .num 2)]
          stored := (persistEffect "layout" demoStorageOptions
            { state := [("a", .num 99), ("b", .num 2)] }).stored }).state "a" =
      some (.num 99) ∧
    alGet (_rehydratePersistedState "layout" demoStorageOptions
        { state := [("a", .num 1), ("b", .num 2)]
          stored := (persistEffect "layout" demoStorageOptions
            { state := [("a", .num 99), ("b", .num 2)] }).stored }).state "b" =
      some (.num 2) := by
  have ha := storage_roundtrip_rehydrates_included_fields "layout" demoStorageOptions
    [("a", .num 99), ("b", .num 2)] [("a", .num 1), ("b", .num 2)] "A99" [] false false
    [] [] 0 0 "a" (by decide) rfl (by decide) rfl rfl rfl rfl (by decide) rfl
  have hb := storage_roundtrip_rehydrates_included_fields "layout" demoStorageOptions
    [("a", .num 99), ("b", .num 2)] [("a", .num 1), ("b", .num 2)] "A99" [] false false
    [] [] 0 0 "b" (by decide) rfl (by decide) rfl rfl rfl rfl (by decide) rfl
  refine ⟨?_, ?_⟩
  · rw [ha]
    simp [demoStorageOptions, jsKeys, alGet]
  · rw [hb]
    simp [demoStorageOptions, jsKeys, alGet]

/-! ## Claim theorems: NavigationFeature query persistence -/

/-- C9: the query persistence strategy follows the claimed precedence: an
explicit handling argument is returned as is; otherwise non-empty query
params force merge; otherwise, when the path is not the active route, an
empty or root path yields no persistence and any other path yields preserve
exactly on an extended match; and when the path is the active route the
result is preserve exactly when the current url contains a question mark. -/
theorem resolveQueryPersistence_precedence (router : RouterModel) (path : Option String)
    (queryParams : Option JsRecord) (handling : Option QueryParamsHandling) :
    (∀ h₀ : QueryParamsHandling, handling = some h₀ →
      resolveQueryPersistence router path queryParams handling = h₀) ∧
    (handling = none → (queryParams.getD []).isEmpty = false →
      resolveQueryPersistence router path queryParams handling = .merge) ∧
    (handling = none → (queryParams.getD []).isEmpty = true →
      matchesActivePath router path .exact = false →
      ((path = some "" ∨ path = some "/") →
        resolveQueryPersistence router path queryParams handling = .empty) ∧
      (¬(path = some "" ∨ path = some "/") →
        resolveQueryPersistence router path queryParams handling =
          if matchesActivePath router path .subset then .preserve else .empty)) ∧
    (handling = none → (queryParams.getD []).isEmpty = true →
      matchesActivePath router path .exact = true →
      (resolveQueryPersistence router path queryParams handling = .preserve ↔
        router.url.data.contains '?' = true)) := by
  refine ⟨?_, ?_, ?_, ?_⟩
  · intro h₀ hh
    subst hh
    simp [resolveQueryPersistence]
  · intro hh hq
    subst hh
    simp [resolveQueryPersistence, hq]
  · intro hh hq hact
    subst hh
    refine ⟨?_, ?_⟩
    · intro hpath
      simp [resolveQueryPersistence, hq, hact, hpath]
    · intro hpath
      by_cases hext : matchesActivePath router path .subset <;>
        simp [resolveQueryPersistence, hq, hact, hpath, hext]
  · intro hh hq hact
    subst hh
    by_cases hc : router.url.data.contains '?' <;>
      simp [resolveQueryPersistence, hq, hact, hc]

/-- C9 witness: on the concrete router whose active url carries a query
string, the users path with no explicit handling and no query params
resolves to preserve through the active route clause. -/
theorem resolveQueryPersistence_precedence_witness :
    resolveQueryPersistence demoRouter (some "/users") none none =
      QueryParamsHandling.preserve := by
  have h := resolveQueryPersistence_precedence demoRouter (some "/users") none none
  exact (h.2.2.2 rfl rfl (by decide)).mpr (by decide)

/-! ## Claim theorems: menu expansion toggle -/

/-- C10 counterexample: toggling id 2 in the two level menu flips only that
flag at the value level, but the map callback returns a fresh object literal
for every visited node, so the unchanged sibling with id 3 comes back as a
new allocation (its allocation number changes from 2 to 11) instead of
retaining object identity as the claim requires. -/
theorem toggleMenuExpansion_reallocates_unchanged_sibling :
    findForestById 3 demoMenuForest = some (.node 2 3 "sibling" false false .nil) ∧
      findForestById 3 (updateForest 2 demoMenuForest 10).1 =
        some (.node 11 3 "sibling" false false .nil) ∧
      findForestById 2 (updateForest 2 demoMenuForest 10).1 =
        some (.node 10 2 "child" true false .nil) :=
  ⟨rfl, rfl, rfl⟩

mutual

theorem updateTree_value (menuId : Int) (t : MenuTree) (fresh : Nat) :
    eraseTree (updateTree menuId t fresh).1 = flipTree menuId (eraseTree t) := by
  cases t with
  | node oid id label expanded hasItems items =>
    cases hasItems <;>
      simp [updateTree, flipTree, eraseTree, updateForest_value]

theorem updateForest_value (menuId : Int) (ts : MenuForest) (fresh : Nat) :
    eraseForest (updateForest menuId ts fresh).1 = flipForest menuId (eraseForest ts) := by
  cases ts with
  | nil => simp [updateForest, flipForest, eraseForest]
  | cons t rest =>
    simp [updateForest, flipForest, eraseForest, updateTree_value, updateForest_value]

end

mutual

theorem updateTree_oid_bounds (menuId : Int) (t : MenuTree) (fresh : Nat)
    (hwf : wfTree t = true) :
    fresh ≤ (updateTree menuId t fresh).2 ∧
      ∀ o ∈ treeOids (updateTree menuId t fresh).1, fresh ≤ o := by
  cases t with
  | node oid id label expanded hasItems items =>
    cases hasItems with
    | true =>
      have hwff : wfForest items = true := by
        simp [wfTree] at hwf
        exact hwf
      have h := updateForest_oid_bounds menuId items fresh hwff
      refine ⟨?_, ?_⟩
      · simp only [updateTree]
        exact le_trans h.1 (Nat.le_succ _)
      · simp only [updateTree, treeOids]
        intro o ho
        simp only [List.mem_cons] at ho
        rcases ho with ho | ho
        · exact ho ▸ h.1
        · exact h.2 o ho
    | false =>
      have hnil : items = .nil := by
        cases items with
        | nil => rfl
        | cons a b => simp [wfTree, MenuForest.isNil] at hwf
      subst hnil
      refine ⟨?_, ?_⟩
      · simp [updateTree]
      · simp [updateTree, treeOids, forestOids]

theorem updateForest_oid_bounds (menuId : Int) (ts : MenuForest) (fresh : Nat)
    (hwf : wfForest ts = true) :
    fresh ≤ (updateForest menuId ts fresh).2 ∧
      ∀ o ∈ forestOids (updateForest menuId ts fresh).1, fresh ≤ o := by
  cases ts with
  | nil => simp [updateForest, forestOids]
  | cons t rest =>
    have hwt : wfTree t = true := by
      simp [wfForest] at hwf
      exact hwf.1
    have hwr : wfForest rest = true := by
      simp [wfForest] at hwf
      exact hwf.2
    have h₁ := updateTree_oid_bounds menuId t fresh hwt
    have h₂ := updateForest_oid_bounds menuId rest (updateTree menuId t fresh).2 hwr
    refine ⟨?_, ?_⟩
    · simp only [updateForest]
      exact le_trans h₁.1 h₂.1
    · simp only [updateForest, forestOids]
      intro o ho
      rcases List.mem_append.mp ho with h | h
      · exact h₁.2 o h
      · exact le_trans h₁.1 (h₂.2 o h)

end

/-- C10 amended: on any well formed menu tree, `updateMenuExpansion` flips at
the value level exactly the expansion flags of the nodes carrying the
targeted id while preserving every other attribute, every sibling flag and
the declared structure; but the returned tree consists exclusively of newly
allocated nodes (every allocation number in the result is drawn at or above
the allocation counter), so no node of the result, changed or unchanged,
retains the object identity of an input node. -/
theorem updateMenuExpansion_flips_value_allocates_fresh (menuId : Int)
    (ts : MenuForest) (fresh : Nat) (hwf : wfForest ts = true) :
    eraseForest (updateForest menuId ts fresh).1 = flipForest menuId (eraseForest ts) ∧
      ∀ o ∈ forestOids (updateForest menuId ts fresh).1, fresh ≤ o :=
  ⟨updateForest_value menuId ts fresh, (updateForest_oid_bounds menuId ts fresh hwf).2⟩

/-- C10 witness: the toggle of id 2 in the demo menu starting the allocation
counter at 10 matches the value level flip, and the sibling allocation 11 in
the result is at or above the counter. -/
theorem updateMenuExpansion_flips_value_allocates_fresh_witness :
    eraseForest (updateForest 2 demoMenuForest 10).1 =
      flipForest 2 (eraseForest demoMenuForest) ∧ 10 ≤ 11 := by
  have h := updateMenuExpansion_flips_value_allocates_fresh 2 demoMenuForest 10 (by decide)
  exact ⟨h.1, h.2 11 (by decide)⟩

end Spec2Proof
